import Mathlib

/-!
Verification of the simplecloud repository's storage and auth handlers.

The storage handler (src/api/jsonbin.js, in-memory variant) keeps a map from
storage id to a record `{files, folders}` and dispatches on an action string.
The auth handler (src/api/auth.js, in-memory variant) keeps a map from storage
id to a user record and handles create/login/verify.  Both are guarded by a
fixed-literal CSRF header check and an in-memory sliding-window rate limiter.
-/

namespace SimpleCloud

/-! ## Data model (spec section 3, mirrored from the JS object shapes) -/

structure FileRec where
  id : String
  name : String
  size : Nat
  type : String
  content : String
  folderId : String
  modified : String
  created : String
deriving Repr, DecidableEq

structure FolderRec where
  id : String
  name : String
  path : String
  parentId : String
  children : List String
  modified : String
  created : String
deriving Repr, DecidableEq

structure Storage where
  files : List FileRec
  folders : List FolderRec
deriving Repr, DecidableEq

instance : Inhabited FileRec := ⟨⟨"", "", 0, "", "", "", "", ""⟩⟩

instance : Inhabited FolderRec := ⟨⟨"", "", "", "", [], "", ""⟩⟩

/-- The folder installed at storage initialization:
`{id: 'root', name: 'Home', path: '/', children: []}` (jsonbin.js).
Fields absent from the JS literal are modelled as empty strings. -/
def rootFolder : FolderRec :=
  { id := "root", name := "Home", path := "/", parentId := "", children := [],
    modified := "", created := "" }

/-- The default record installed for an unknown storage id (jsonbin.js). -/
def defaultStorage : Storage := ⟨[], [rootFolder]⟩

/-! ## Requests and responses of the storage handler -/

/-- Payload of `data` as read by the addFile action: `data.name`, `data.size`,
`data.type`, `data.content`. -/
structure FileData where
  name : String
  size : Nat
  type : String
  content : String
deriving Repr, DecidableEq

/-- Payload of `data` as read by the addFolder action: `data.name`, `data.path`. -/
structure FolderData where
  name : String
  path : String
deriving Repr, DecidableEq

/-- An action string together with the body fields that action reads.
`other` covers every unrecognised action string. Absent string fields of the
JS body are modelled as `""` (both are falsy in the JS truthiness checks). -/
inductive StorageAction where
  | getStorage
  | updateStorage (data : Option Storage)
  | addFile (data : Option FileData) (folderId : String)
  | addFolder (data : Option FolderData) (folderId : String)
  | renameItem (itemType : String) (fileId : String) (newName : String)
  | deleteItem (itemType : String) (fileId : String)
  | other (action : String)
deriving Repr, DecidableEq

inductive RespBody where
  | msg (m : String)
  | msgFolder (m : String) (folder : FolderRec)
  | storagePayload (s : Storage)
  | errMsg (e : String)
deriving Repr, DecidableEq

structure Resp where
  status : Nat
  body : RespBody
deriving Repr, DecidableEq

/-- The per-action core of the storage handler (jsonbin.js, after token, CSRF
and rate-limit checks and after initialization of the user's record).  Returns
the response together with `some s` when the branch calls
`storageData.set(storageId, s)`, and `none` when it stores nothing. -/
def jsonbinDispatch (now : Nat) (iso : String) (a : StorageAction) (st : Storage) :
    Resp × Option Storage :=
  match a with
  | .getStorage => (⟨200, .storagePayload st⟩, none)
  | .updateStorage none => (⟨400, .errMsg "Data is required"⟩, none)
  | .updateStorage (some d) => (⟨200, .msg "Storage updated successfully"⟩, some d)
  | .addFile none _ => (⟨400, .errMsg "File data is required"⟩, none)
  | .addFile (some d) folderId =>
      let newFile : FileRec :=
        { id := toString now, name := d.name, size := d.size, type := d.type,
          content := d.content,
          folderId := if folderId = "" then "root" else folderId,
          modified := iso, created := iso }
      (⟨200, .msg "File added successfully"⟩, some ⟨st.files ++ [newFile], st.folders⟩)
  | .addFolder none _ => (⟨400, .errMsg "Folder name is required"⟩, none)
  | .addFolder (some d) folderId =>
      if d.name = "" then (⟨400, .errMsg "Folder name is required"⟩, none)
      else
        let newFolder : FolderRec :=
          { id := toString now, name := d.name,
            path := if d.path = "" then "/" else d.path,
            parentId := if folderId = "" then "root" else folderId,
            children := [], modified := iso, created := iso }
        (⟨200, .msgFolder "Folder added successfully" newFolder⟩,
         some ⟨st.files, st.folders ++ [newFolder]⟩)
  | .renameItem itemType fileId newName =>
      if itemType = "" ∨ fileId = "" ∨ newName = "" then
        (⟨400, .errMsg "Item type, ID and new name are required"⟩, none)
      else if itemType = "file" then
        match st.files.findIdx? (fun f => f.id == fileId) with
        | none => (⟨404, .errMsg "File not found"⟩, none)
        | some i =>
            let f := st.files.getD i default
            (⟨200, .msg "Item renamed successfully"⟩,
             some ⟨st.files.set i { f with name := newName, modified := iso }, st.folders⟩)
      else if itemType = "folder" then
        match st.folders.findIdx? (fun f => f.id == fileId) with
        | none => (⟨404, .errMsg "Folder not found"⟩, none)
        | some i =>
            let f := st.folders.getD i default
            (⟨200, .msg "Item renamed successfully"⟩,
             some ⟨st.files, st.folders.set i { f with name := newName, modified := iso }⟩)
      else (⟨400, .errMsg "Invalid item type"⟩, none)
  | .deleteItem itemType fileId =>
      if itemType = "" ∨ fileId = "" then
        (⟨400, .errMsg "Item type and ID are required"⟩, none)
      else if itemType = "file" then
        (⟨200, .msg "Item deleted successfully"⟩,
         some ⟨st.files.filter (fun f => f.id != fileId), st.folders⟩)
      else if itemType = "folder" then
        (⟨200, .msg "Item deleted successfully"⟩,
         some ⟨st.files.filter (fun f => f.folderId != fileId),
               st.folders.filter (fun f => f.id != fileId)⟩)
      else (⟨400, .errMsg "Invalid item type"⟩, none)
  | .other _ => (⟨400, .errMsg "Invalid action"⟩, none)

/-- The effect of one dispatched action on the user's stored record: branches
that store nothing leave the record as it was. -/
def applyAction (now : Nat) (iso : String) (a : StorageAction) (st : Storage) :
    Resp × Storage :=
  let p := jsonbinDispatch now iso a st
  (p.1, p.2.getD st)

/-- One handler request as seen by the per-user storage evolution. -/
structure TimedReq where
  now : Nat
  iso : String
  act : StorageAction
deriving Repr, DecidableEq

/-- Run a sequence of requests against a user's storage record. -/
def runReqs (rs : List TimedReq) (st : Storage) : Storage :=
  rs.foldl (fun s r => (applyAction r.now r.iso r.act s).2) st

/-- The storage contains a folder whose id is `root`. -/
def hasRoot (st : Storage) : Bool :=
  st.folders.any (fun f => f.id == "root")

/-- File ids and folder ids are pairwise distinct within a storage. -/
def idsUnique (st : Storage) : Prop :=
  (st.files.map FileRec.id).Nodup ∧ (st.folders.map FolderRec.id).Nodup

/-! ## Association-list model of the JS `Map` (get / has / set, insertion order
preserved; `set` on an existing key updates in place, otherwise appends). -/

def amFind {α : Type} : List (String × α) → String → Option α
  | [], _ => none
  | e :: m, k => if (e.1 == k) = true then some e.2 else amFind m k

def amHas {α : Type} : List (String × α) → String → Bool
  | [], _ => false
  | e :: m, k => (e.1 == k) || amHas m k

/-- Model of Map.set: update the entry in place when the key is present (keys
are unique in a JS Map), otherwise append the new entry at the end. -/
def amSet {α : Type} : List (String × α) → String → α → List (String × α)
  | [], k, v => [(k, v)]
  | e :: m, k, v => if (e.1 == k) = true then (k, v) :: m else e :: amSet m k v

/-- The keys of an association list are pairwise distinct (holds for every map
built from the empty map by `amSet`). -/
def keysNodup {α : Type} (m : List (String × α)) : Prop :=
  (m.map Prod.fst).Nodup

/-! ## CSRF header checks.

auth.js accepts `['create', 'login', 'verify']`; jsonbin.js accepts
`['read', 'write', 'delete']`.  A missing header or a header outside the
list is rejected with 401 (`!csrfHeader || !list.includes(csrfHeader)`). -/

def csrfOkAuth : Option String → Bool
  | none => false
  | some s => !(s == "") && ["create", "login", "verify"].contains s

def csrfOkStorage : Option String → Bool
  | none => false
  | some s => !(s == "") && ["read", "write", "delete"].contains s

/-! ## Sliding-window rate limiter (isRateLimited in auth.js and jsonbin.js).

The map holds, per key, the timestamps of previously admitted requests.  Every
call first drops timestamps older than one hour from every entry (deleting
entries that become empty), then admits the request iff fewer than `limit`
timestamps remain for its key, recording its own timestamp when admitted. -/

abbrev RLMap := List (String × List Nat)

/-- The filter `timestamps.filter(t => t > windowStart)`; the window start is
an `Int` because `now - 3600000` is negative for small `now` in JS. -/
def rlFilter (windowStart : Int) (ts : List Nat) : List Nat :=
  ts.filter (fun t => decide (windowStart < (t : Int)))

/-- The cleanup loop over all entries of the map: re-filter every entry's
timestamps, deleting entries whose filtered list is empty. -/
def rlCleanup (windowStart : Int) : RLMap → RLMap
  | [] => []
  | e :: m =>
    let recent := rlFilter windowStart e.2
    if recent.length = 0 then rlCleanup windowStart m
    else (e.1, recent) :: rlCleanup windowStart m

def isRateLimited (limit : Nat) (key : String) (now : Nat) (m : RLMap) : Bool × RLMap :=
  let windowStart : Int := (now : Int) - 3600000
  let m1 := rlCleanup windowStart m
  let ts := rlFilter windowStart ((amFind m1 key).getD [])
  if limit ≤ ts.length then (true, m1)
  else (false, amSet m1 key (ts ++ [now]))

/-- The auth rate-limit key, the template string joining the client IP and
`JSON.stringify(deviceFingerprint)` with a colon; the fingerprint is modelled
by its JSON string. -/
def authKey (ip : String) (fp : String) : String := ip ++ ":" ++ fp

/-- Run a sequence of `(key, timestamp)` requests through the rate limiter,
pairing each request with its decision (`true` = rejected with 429). -/
def rlTrace (limit : Nat) : List (String × Nat) → RLMap → List ((String × Nat) × Bool)
  | [], _ => []
  | r :: rs, m =>
    let p := isRateLimited limit r.1 r.2 m
    (r, p.1) :: rlTrace limit rs p.2

/-- Number of earlier requests (paired with their decisions) that share `key`,
were not rejected, and fall inside the hour preceding `now`. -/
def winCount (hist : List ((String × Nat) × Bool)) (key : String) (now : Nat) : Nat :=
  (hist.filter (fun h =>
    h.1.1 == key && !h.2 && decide ((now : Int) - 3600000 < (h.1.2 : Int)))).length

/-- Timestamps of the non-rejected requests with the given key, in order. -/
def acceptedTimes (hist : List ((String × Nat) × Bool)) (k : String) : List Nat :=
  (hist.filter (fun h => h.1.1 == k && !h.2)).map (fun h => h.1.2)

/-! ## Auth handler (src/api/auth.js, in-memory variant).

`bcrypt.hash`, `bcrypt.compare` and `jwt.sign` are external libraries, modelled
as parameters; `verifyTok` models `jwt.verify`, returning the decoded
storageId or `none` on failure. -/

structure UserRec where
  password : String
  createdAt : String
  storage : Storage
deriving Repr, DecidableEq

abbrev UserStore := List (String × UserRec)

structure AuthReq where
  action : String
  storageId : String
  password : String
  deviceFingerprint : String
  csrf : Option String
  cookieToken : Option String
deriving Repr, DecidableEq

inductive AuthBody where
  | msg (m : String)
  | msgWithId (m : String) (storageId : String)
  | errMsg (e : String)
deriving Repr, DecidableEq

structure AuthResp where
  status : Nat
  body : AuthBody
  setCookie : Option String
deriving Repr, DecidableEq

def authHandler (hash : String → String) (sign : String → String)
    (compare : String → String → Bool) (verifyTok : String → Option String)
    (now : Nat) (nowIso : String) (ip : String)
    (req : AuthReq) (users : UserStore) (rl : RLMap) :
    AuthResp × UserStore × RLMap :=
  if csrfOkAuth req.csrf = false then
    (⟨401, .errMsg "Invalid request", none⟩, users, rl)
  else
    let p := isRateLimited 60 (authKey ip req.deviceFingerprint) now rl
    if p.1 then
      (⟨429, .errMsg "Too many requests. Please try again later.", none⟩, users, p.2)
    else if req.action = "create" then
      if req.storageId = "" ∨ req.password = "" then
        (⟨400, .errMsg "Storage ID and password are required", none⟩, users, p.2)
      else if amHas users req.storageId then
        (⟨409, .errMsg "Storage ID already exists", none⟩, users, p.2)
      else
        (⟨200, .msg "Storage created successfully", some (sign req.storageId)⟩,
         amSet users req.storageId ⟨hash req.password, nowIso, ⟨[], []⟩⟩, p.2)
    else if req.action = "login" then
      if req.storageId = "" ∨ req.password = "" then
        (⟨400, .errMsg "Storage ID and password are required", none⟩, users, p.2)
      else
        match amFind users req.storageId with
        | none => (⟨401, .errMsg "Invalid storage ID or password", none⟩, users, p.2)
        | some u =>
          if compare req.password u.password = false then
            (⟨401, .errMsg "Invalid storage ID or password", none⟩, users, p.2)
          else
            (⟨200, .msg "Login successful", some (sign req.storageId)⟩, users, p.2)
    else if req.action = "verify" then
      match req.cookieToken with
      | none => (⟨401, .errMsg "Not authenticated", none⟩, users, p.2)
      | some tok =>
        match verifyTok tok with
        | none => (⟨401, .errMsg "Invalid token", none⟩, users, p.2)
        | some sid =>
          if amHas users sid = false then
            (⟨401, .errMsg "Storage not found", none⟩, users, p.2)
          else (⟨200, .msgWithId "Authenticated" sid, none⟩, users, p.2)
    else (⟨400, .errMsg "Invalid action", none⟩, users, p.2)

/-! ## Store-level storage handler (jsonbin.js, in-memory variant): CSRF
check, rate limit, then installation of the default record for an unknown
storage id, then action dispatch.  The JWT layer is external; `storageId` is
the id the verified token decodes to. -/

abbrev StoreMap := List (String × Storage)

def jsonbinHandler (now : Nat) (iso : String) (csrf : Option String) (ip : String)
    (storageId : String) (a : StorageAction) (store : StoreMap) (rl : RLMap) :
    Resp × StoreMap × RLMap :=
  if csrfOkStorage csrf = false then (⟨401, .errMsg "Invalid CSRF token"⟩, store, rl)
  else
    let p := isRateLimited 120 ip now rl
    if p.1 then
      (⟨429, .errMsg "Too many requests. Please try again later."⟩, store, p.2)
    else
      let store1 := if amHas store storageId then store else amSet store storageId defaultStorage
      let st := (amFind store1 storageId).getD defaultStorage
      let q := jsonbinDispatch now iso a st
      match q.2 with
      | none => (q.1, store1, p.2)
      | some s => (q.1, amSet store1 storageId s, p.2)

/-! ## Side conditions used by the amended claims -/

/-- The action cannot remove the root folder: it is not an `updateStorage`
whose payload lacks a root folder, and not a `deleteItem` of folder `root`. -/
def preservesRoot : StorageAction → Bool
  | .updateStorage (some d) => hasRoot d
  | .deleteItem t fid => !(t == "folder" && fid == "root")
  | _ => true

/-- The request's clock string is fresh for the collection it inserts into,
and an `updateStorage` payload has pairwise-distinct ids. -/
def freshReq (now : Nat) (a : StorageAction) (st : Storage) : Bool :=
  match a with
  | .addFile (some _) _ => decide (toString now ∉ st.files.map FileRec.id)
  | .addFolder (some d) _ =>
      decide (d.name = "") || decide (toString now ∉ st.folders.map FolderRec.id)
  | .updateStorage (some d) =>
      decide (d.files.map FileRec.id).Nodup && decide (d.folders.map FolderRec.id).Nodup
  | _ => true

/-- The condition `freshReq` holds at every step of the run. -/
def freshRun : List TimedReq → Storage → Bool
  | [], _ => true
  | r :: rs, st => freshReq r.now r.act st && freshRun rs (applyAction r.now r.iso r.act st).2

/-! ## Concrete inputs used by the witnesses -/

def wFile1 : FileRec :=
  { id := "a1", name := "notes.txt", size := 3, type := "text/plain", content := "",
    folderId := "f1", modified := "", created := "" }

def wFile2 : FileRec :=
  { id := "a2", name := "pic.png", size := 9, type := "image/png", content := "",
    folderId := "root", modified := "", created := "" }

def wFolder1 : FolderRec :=
  { id := "f1", name := "docs", path := "/", parentId := "root", children := [],
    modified := "", created := "" }

def wStorage : Storage := ⟨[wFile1, wFile2], [rootFolder, wFolder1]⟩

def wUser : UserRec := ⟨"hashed-pw", "2020-01-01", ⟨[], []⟩⟩

def wUsers : UserStore := [("alice", wUser)]

/-! ## Helper lemmas on lists -/

theorem any_set_congr {α : Type} (p : α → Bool) (g : α) :
    ∀ (l : List α) (i : Nat), (∀ x, l[i]? = some x → p g = p x) →
    (l.set i g).any p = l.any p
  | [], _, _ => rfl
  | x :: xs, 0, h => by
      have hx := h x List.getElem?_cons_zero
      simp only [List.set_cons_zero, List.any_cons, hx]
  | x :: xs, n+1, h => by
      have ih := any_set_congr p g xs n
        (fun y hy => h y (by rw [List.getElem?_cons_succ]; exact hy))
      simp only [List.set_cons_succ, List.any_cons, ih]

theorem map_set_congr {α β : Type} (F : α → β) (g : α) :
    ∀ (l : List α) (i : Nat), (∀ x, l[i]? = some x → F g = F x) →
    (l.set i g).map F = l.map F
  | [], _, _ => rfl
  | x :: xs, 0, h => by
      have hx := h x List.getElem?_cons_zero
      simp only [List.set_cons_zero, List.map_cons, hx]
  | x :: xs, n+1, h => by
      have ih := map_set_congr F g xs n
        (fun y hy => h y (by rw [List.getElem?_cons_succ]; exact hy))
      simp only [List.set_cons_succ, List.map_cons, ih]

theorem getD_eq_of_getElem? {α : Type} [Inhabited α] {l : List α} {i : Nat} {x : α}
    (h : l[i]? = some x) : l.getD i default = x := by
  rw [List.getD_eq_getElem?_getD, h]
  rfl

/-! ## C1: deleting a folder cascades to its files and touches nothing else -/

/-- Claim C1: after a successful (200) deleteItem with itemType `folder` and
id `fid`, the storage contains no folder with id `fid` and no file whose
folderId is `fid`; the surviving collections are exactly the filters of the
old ones, so every other file and folder record is unchanged. -/
theorem deleteItem_folder_cascade (now : Nat) (iso fid : String) (st : Storage)
    (resp : Resp) (st' : Storage) (hfid : fid ≠ "")
    (h : applyAction now iso (.deleteItem "folder" fid) st = (resp, st')) :
    resp.status = 200 ∧
    (∀ g ∈ st'.folders, g.id ≠ fid) ∧
    (∀ f ∈ st'.files, f.folderId ≠ fid) ∧
    st'.files = st.files.filter (fun f => f.folderId != fid) ∧
    st'.folders = st.folders.filter (fun g => g.id != fid) ∧
    (∀ f ∈ st.files, f.folderId ≠ fid → f ∈ st'.files) ∧
    (∀ g ∈ st.folders, g.id ≠ fid → g ∈ st'.folders) ∧
    (∀ f ∈ st'.files, f ∈ st.files) ∧
    (∀ g ∈ st'.folders, g ∈ st.folders) := by
  have hcond : ¬(("folder" : String) = "" ∨ fid = "") := by
    rintro (hc | hc)
    · exact absurd hc (by decide)
    · exact hfid hc
  have hfile : ¬(("folder" : String) = "file") := by decide
  have key : applyAction now iso (.deleteItem "folder" fid) st =
      (⟨200, .msg "Item deleted successfully"⟩,
       ⟨st.files.filter (fun f => f.folderId != fid),
        st.folders.filter (fun g => g.id != fid)⟩) := by
    simp only [applyAction, jsonbinDispatch, if_neg hcond, if_neg hfile, if_pos rfl,
      if_true, Option.getD_some]
  rw [key] at h
  injection h with h1 h2
  subst h1
  subst h2
  refine ⟨rfl, ?_, ?_, rfl, rfl, ?_, ?_, ?_, ?_⟩
  · intro g hg
    exact bne_iff_ne.mp (List.mem_filter.mp hg).2
  · intro f hf
    exact bne_iff_ne.mp (List.mem_filter.mp hf).2
  · intro f hf hne
    exact List.mem_filter.mpr ⟨hf, bne_iff_ne.mpr hne⟩
  · intro g hg hne
    exact List.mem_filter.mpr ⟨hg, bne_iff_ne.mpr hne⟩
  · intro f hf
    exact (List.mem_filter.mp hf).1
  · intro g hg
    exact (List.mem_filter.mp hg).1

/-- Witness for C1 at a concrete storage: deleting folder `f1` removes the
folder and its file and keeps everything else. -/
theorem deleteItem_folder_cascade_witness :
    (applyAction 0 "" (.deleteItem "folder" "f1") wStorage).1.status = 200 ∧
    (∀ g ∈ (applyAction 0 "" (.deleteItem "folder" "f1") wStorage).2.folders, g.id ≠ "f1") ∧
    (∀ f ∈ (applyAction 0 "" (.deleteItem "folder" "f1") wStorage).2.files, f.folderId ≠ "f1") := by
  have h := deleteItem_folder_cascade 0 "" "f1" wStorage _ _ (by decide) rfl
  exact ⟨h.1, h.2.1, h.2.2.1⟩

/-! ## C2: presence of the root folder -/

/-- One dispatched action keeps the root folder, provided it is not an
updateStorage whose payload lacks it and not a deleteItem of folder `root`. -/
theorem hasRoot_applyAction (now : Nat) (iso : String) (a : StorageAction) (st : Storage)
    (hst : hasRoot st = true) (ha : preservesRoot a = true) :
    hasRoot (applyAction now iso a st).2 = true := by
  cases a with
  | getStorage => simpa [applyAction, jsonbinDispatch] using hst
  | updateStorage data =>
    cases data with
    | none => simpa [applyAction, jsonbinDispatch] using hst
    | some d =>
      simp only [preservesRoot] at ha
      simpa [applyAction, jsonbinDispatch] using ha
  | addFile data folderId =>
    cases data with
    | none => simpa [applyAction, jsonbinDispatch] using hst
    | some d =>
      simp only [applyAction, jsonbinDispatch, Option.getD_some]
      exact hst
  | addFolder data folderId =>
    cases data with
    | none => simpa [applyAction, jsonbinDispatch] using hst
    | some d =>
      by_cases hn : d.name = ""
      · simpa [applyAction, jsonbinDispatch, if_pos hn] using hst
      · simp only [applyAction, jsonbinDispatch, if_neg hn, Option.getD_some]
        simp only [hasRoot] at hst ⊢
        simp [List.any_append, hst]
  | renameItem t fid nn =>
    simp only [applyAction, jsonbinDispatch]
    split
    · exact hst
    · split
      · split
        · exact hst
        · exact hst
      · split
        · split
          · exact hst
          · next i heq =>
              simp only [Option.getD_some]
              simp only [hasRoot] at hst ⊢
              rw [any_set_congr _ _ st.folders i ?_]
              · exact hst
              · intro x hx
                rw [getD_eq_of_getElem? hx]
        · exact hst
  | deleteItem t fid =>
    simp only [preservesRoot] at ha
    simp only [applyAction, jsonbinDispatch]
    split
    · exact hst
    · split
      · exact hst
      · split
        · next h1 h2 h3 =>
            subst h3
            simp only [Option.getD_some]
            have hfid : fid ≠ "root" := by
              intro hc
              subst hc
              simp at ha
            simp only [hasRoot] at hst ⊢
            obtain ⟨x, hmem, hpx⟩ := List.any_eq_true.mp hst
            refine List.any_eq_true.mpr ⟨x, List.mem_filter.mpr ⟨hmem, ?_⟩, hpx⟩
            refine bne_iff_ne.mpr ?_
            intro hc
            exact hfid ((beq_iff_eq.mp hpx ▸ hc).symm ▸ rfl)
        · exact hst
  | other s => simpa [applyAction, jsonbinDispatch] using hst

/-- Root presence is preserved along any run whose requests all satisfy
`preservesRoot`. -/
theorem hasRoot_runReqs (rs : List TimedReq) : ∀ (st : Storage),
    hasRoot st = true → (∀ r ∈ rs, preservesRoot r.act = true) →
    hasRoot (runReqs rs st) = true := by
  induction rs with
  | nil => intro st h _; exact h
  | cons r rs ih =>
    intro st h hall
    have hstep := hasRoot_applyAction r.now r.iso r.act st h (hall r (List.mem_cons_self r rs))
    exact ih _ hstep (fun x hx => hall x (List.mem_cons_of_mem r hx))

/-- Counterexample to claim C2 as stated: a deleteItem request with itemType
`folder` and id `root` is a successful (200) handler action, and the state it
reaches from a freshly created storage has no folder with id `root`. -/
theorem root_deletable_counterexample :
    (applyAction 0 "" (.deleteItem "folder" "root") defaultStorage).1.status = 200 ∧
    hasRoot (runReqs [⟨0, "", .deleteItem "folder" "root"⟩] defaultStorage) = false ∧
    (runReqs [⟨0, "", .deleteItem "folder" "root"⟩] defaultStorage).folders = [] := by
  decide

/-- Claim C2, amended: every state reached from a freshly created storage by a
sequence of handler actions that contains no deleteItem of folder `root` and
no updateStorage whose payload lacks a root folder still contains a folder
whose id is `root`. -/
theorem root_always_present_amended (rs : List TimedReq)
    (h : ∀ r ∈ rs, preservesRoot r.act = true) :
    hasRoot (runReqs rs defaultStorage) = true :=
  hasRoot_runReqs rs defaultStorage (by decide) h

/-- Witness for the amended C2 on a concrete action sequence. -/
theorem root_always_present_witness :
    hasRoot (runReqs
      [⟨1, "t1", .addFolder (some ⟨"docs", "/"⟩) ""⟩,
       ⟨2, "t2", .addFile (some ⟨"a.txt", 1, "text/plain", ""⟩) "1"⟩,
       ⟨3, "t3", .renameItem "folder" "root" "Base"⟩,
       ⟨4, "t4", .deleteItem "folder" "1"⟩] defaultStorage) = true :=
  root_always_present_amended _ (by decide)

/-! ## C3: uniqueness of file and folder ids -/

/-- One dispatched action keeps file ids and folder ids pairwise distinct,
provided the clock string of an add is fresh and an updateStorage payload has
distinct ids. -/
theorem idsUnique_applyAction (now : Nat) (iso : String) (a : StorageAction) (st : Storage)
    (h : idsUnique st) (hf : freshReq now a st = true) :
    idsUnique (applyAction now iso a st).2 := by
  obtain ⟨hfiles, hfolders⟩ := h
  cases a with
  | getStorage =>
    simp only [applyAction, jsonbinDispatch, Option.getD_none]
    exact ⟨hfiles, hfolders⟩
  | updateStorage data =>
    cases data with
    | none =>
      simp only [applyAction, jsonbinDispatch, Option.getD_none]
      exact ⟨hfiles, hfolders⟩
    | some d =>
      simp only [freshReq] at hf
      simp only [Bool.and_eq_true] at hf
      simp only [applyAction, jsonbinDispatch, Option.getD_some]
      exact ⟨of_decide_eq_true hf.1, of_decide_eq_true hf.2⟩
  | addFile data folderId =>
    cases data with
    | none =>
      simp only [applyAction, jsonbinDispatch, Option.getD_none]
      exact ⟨hfiles, hfolders⟩
    | some d =>
      simp only [freshReq] at hf
      have hnot : toString now ∉ st.files.map FileRec.id := of_decide_eq_true hf
      simp only [applyAction, jsonbinDispatch, Option.getD_some]
      refine ⟨?_, hfolders⟩
      rw [List.map_append]
      exact List.nodup_append.mpr
        ⟨hfiles, List.nodup_singleton _, List.disjoint_singleton.mpr hnot⟩
  | addFolder data folderId =>
    cases data with
    | none =>
      simp only [applyAction, jsonbinDispatch, Option.getD_none]
      exact ⟨hfiles, hfolders⟩
    | some d =>
      by_cases hn : d.name = ""
      · simp only [applyAction, jsonbinDispatch, if_pos hn, Option.getD_none]
        exact ⟨hfiles, hfolders⟩
      · simp only [freshReq] at hf
        have hnot : toString now ∉ st.folders.map FolderRec.id := by
          rw [Bool.or_eq_true] at hf
          rcases hf with h1 | h1
          · exact absurd (of_decide_eq_true h1) hn
          · exact of_decide_eq_true h1
        simp only [applyAction, jsonbinDispatch, if_neg hn, Option.getD_some]
        refine ⟨hfiles, ?_⟩
        rw [List.map_append]
        exact List.nodup_append.mpr
          ⟨hfolders, List.nodup_singleton _, List.disjoint_singleton.mpr hnot⟩
  | renameItem t fid nn =>
    simp only [applyAction, jsonbinDispatch]
    split
    · exact ⟨hfiles, hfolders⟩
    · split
      · split
        · exact ⟨hfiles, hfolders⟩
        · next i heq =>
            simp only [Option.getD_some]
            refine ⟨?_, hfolders⟩
            rw [map_set_congr FileRec.id _ st.files i ?_]
            · exact hfiles
            · intro x hx
              rw [getD_eq_of_getElem? hx]
      · split
        · split
          · exact ⟨hfiles, hfolders⟩
          · next i heq =>
              simp only [Option.getD_some]
              refine ⟨hfiles, ?_⟩
              rw [map_set_congr FolderRec.id _ st.folders i ?_]
              · exact hfolders
              · intro x hx
                rw [getD_eq_of_getElem? hx]
        · exact ⟨hfiles, hfolders⟩
  | deleteItem t fid =>
    simp only [applyAction, jsonbinDispatch]
    split
    · exact ⟨hfiles, hfolders⟩
    · split
      · simp only [Option.getD_some]
        refine ⟨?_, hfolders⟩
        exact List.Nodup.sublist
          (List.Sublist.map FileRec.id (List.filter_sublist st.files)) hfiles
      · split
        · simp only [Option.getD_some]
          constructor
          · exact List.Nodup.sublist
              (List.Sublist.map FileRec.id (List.filter_sublist st.files)) hfiles
          · exact List.Nodup.sublist
              (List.Sublist.map FolderRec.id (List.filter_sublist st.folders)) hfolders
        · exact ⟨hfiles, hfolders⟩
  | other s =>
    simp only [applyAction, jsonbinDispatch, Option.getD_none]
    exact ⟨hfiles, hfolders⟩

/-- Id uniqueness is preserved along any run satisfying `freshRun`. -/
theorem idsUnique_runReqs (rs : List TimedReq) : ∀ (st : Storage),
    idsUnique st → freshRun rs st = true → idsUnique (runReqs rs st) := by
  induction rs with
  | nil => intro st h _; exact h
  | cons r rs ih =>
    intro st h hall
    simp only [freshRun, Bool.and_eq_true] at hall
    obtain ⟨h1, h2⟩ := hall
    exact ih _ (idsUnique_applyAction r.now r.iso r.act st h h1) h2

/-- Counterexample to claim C3 as stated: two addFile requests arriving in the
same millisecond (Date.now() = 5) both succeed with 200 and produce two file
records with the same id "5". -/
theorem duplicate_ids_counterexample :
    (applyAction 5 "" (.addFile (some ⟨"a.txt", 1, "text/plain", ""⟩) "") defaultStorage).1.status
        = 200 ∧
    ((runReqs [⟨5, "", .addFile (some ⟨"a.txt", 1, "text/plain", ""⟩) ""⟩,
               ⟨5, "", .addFile (some ⟨"b.txt", 2, "text/plain", ""⟩) ""⟩]
        defaultStorage).files.map FileRec.id) = ["5", "5"] ∧
    ¬ ((runReqs [⟨5, "", .addFile (some ⟨"a.txt", 1, "text/plain", ""⟩) ""⟩,
                 ⟨5, "", .addFile (some ⟨"b.txt", 2, "text/plain", ""⟩) ""⟩]
        defaultStorage).files.map FileRec.id).Nodup := by
  decide

/-- Claim C3, amended: file ids and folder ids stay pairwise distinct along
every run in which each addFile/addFolder arrives at a clock value whose
decimal string is not already an id of the collection it extends, and each
updateStorage payload itself has pairwise-distinct ids. -/
theorem ids_unique_amended (rs : List TimedReq) (h : freshRun rs defaultStorage = true) :
    idsUnique (runReqs rs defaultStorage) :=
  idsUnique_runReqs rs defaultStorage ⟨by decide, by decide⟩ h

/-- Witness for the amended C3 on a concrete action sequence with strictly
increasing timestamps. -/
theorem ids_unique_witness :
    idsUnique (runReqs
      [⟨1, "t1", .addFile (some ⟨"a.txt", 1, "text/plain", ""⟩) ""⟩,
       ⟨2, "t2", .addFile (some ⟨"b.txt", 2, "text/plain", ""⟩) ""⟩,
       ⟨3, "t3", .addFolder (some ⟨"docs", "/"⟩) ""⟩] defaultStorage) :=
  ids_unique_amended _ (by decide)

/-! ## C6: the sets of accepted CSRF header values -/

/-- Counterexample to claim C6 as stated: the storage handler also accepts the
header value "delete", which is neither "read" nor "write". -/
theorem storage_csrf_accepts_delete_counterexample :
    csrfOkStorage (some "delete") = true ∧ "delete" ≠ "read" ∧ "delete" ≠ "write" := by
  decide

/-- Claim C6, amended: the auth handler accepts exactly the header values
"create", "login", "verify" and the storage handler accepts exactly "read",
"write", "delete"; every other header value, and a missing header, is
rejected. -/
theorem csrf_accepted_sets_amended :
    (∀ h : Option String, csrfOkAuth h = true ↔
        (h = some "create" ∨ h = some "login" ∨ h = some "verify")) ∧
    (∀ h : Option String, csrfOkStorage h = true ↔
        (h = some "read" ∨ h = some "write" ∨ h = some "delete")) := by
  constructor
  · intro h
    cases h with
    | none => simp [csrfOkAuth]
    | some s =>
      simp only [csrfOkAuth, Bool.and_eq_true, List.elem_iff, Option.some.injEq]
      constructor
      · rintro ⟨-, h2⟩
        simpa using h2
      · rintro (rfl | rfl | rfl) <;> decide
  · intro h
    cases h with
    | none => simp [csrfOkStorage]
    | some s =>
      simp only [csrfOkStorage, Bool.and_eq_true, List.elem_iff, Option.some.injEq]
      constructor
      · rintro ⟨-, h2⟩
        simpa using h2
      · rintro (rfl | rfl | rfl) <;> decide

/-! ## Association-list map lemmas -/

theorem amFind_amSet_self {α : Type} : ∀ (m : List (String × α)) (k : String) (v : α),
    amFind (amSet m k v) k = some v
  | [], k, v => by
      simp only [amSet, amFind]
      rw [if_pos (beq_self_eq_true k)]
  | e :: m, k, v => by
      by_cases he : (e.1 == k) = true
      · simp only [amSet, if_pos he, amFind]
        rw [if_pos (beq_self_eq_true k)]
      · simp only [amSet, if_neg he, amFind]
        exact amFind_amSet_self m k v

theorem amFind_amSet_ne {α : Type} (k k' : String) (hne : k' ≠ k) :
    ∀ (m : List (String × α)) (v : α), amFind (amSet m k v) k' = amFind m k'
  | [], v => by
      have hkk : (k == k') = false := beq_eq_false_iff_ne.mpr (Ne.symm hne)
      simp only [amSet, amFind]
      rw [if_neg (by simp [hkk])]
  | e :: m, v => by
      by_cases he : (e.1 == k) = true
      · have hek : e.1 = k := beq_iff_eq.mp he
        have hkk : (k == k') = false := beq_eq_false_iff_ne.mpr (Ne.symm hne)
        simp only [amSet, if_pos he, amFind]
        rw [if_neg (by simp [hkk]), if_neg (by simp [hek, hkk])]
      · simp only [amSet, if_neg he, amFind]
        by_cases he' : (e.1 == k') = true
        · rw [if_pos he', if_pos he']
        · rw [if_neg he', if_neg he']
          exact amFind_amSet_ne k k' hne m v

theorem amHas_eq_isSome_amFind {α : Type} :
    ∀ (m : List (String × α)) (k : String), amHas m k = (amFind m k).isSome
  | [], _ => rfl
  | e :: m, k => by
      by_cases he : (e.1 == k) = true
      · simp [amHas, amFind, he]
      · simp only [amHas, amFind]
        rw [if_neg he]
        have he' : (e.1 == k) = false := by
          revert he
          cases e.1 == k <;> simp
        rw [he', Bool.false_or]
        exact amHas_eq_isSome_amFind m k

theorem amHas_amSet_self {α : Type} (m : List (String × α)) (k : String) (v : α) :
    amHas (amSet m k v) k = true := by
  rw [amHas_eq_isSome_amFind, amFind_amSet_self]
  rfl

theorem length_amSet_of_not_has {α : Type} :
    ∀ (m : List (String × α)) (k : String) (v : α), amHas m k = false →
    (amSet m k v).length = m.length + 1
  | [], k, v, _ => rfl
  | e :: m, k, v, h => by
      simp only [amHas, Bool.or_eq_false_iff] at h
      simp only [amSet]
      rw [if_neg (by simp [h.1])]
      simp only [List.length_cons]
      rw [length_amSet_of_not_has m k v h.2]

/-! ## C4: creating a storage that already exists fails with 409 -/

/-- Claim C4: a create request with non-empty storageId and password (passing
the CSRF and rate-limit checks) returns 409 with an error body and leaves the
user store unchanged when the storageId already exists, and otherwise installs
exactly the new record and returns 200. -/
theorem create_conflict_or_creates (hash sign : String → String)
    (compare : String → String → Bool) (verifyTok : String → Option String)
    (now : Nat) (nowIso ip : String) (req : AuthReq) (users : UserStore) (rl : RLMap)
    (hact : req.action = "create") (hsid : req.storageId ≠ "") (hpw : req.password ≠ "")
    (hcsrf : csrfOkAuth req.csrf = true)
    (hrl : (isRateLimited 60 (authKey ip req.deviceFingerprint) now rl).1 = false) :
    (amHas users req.storageId = true →
      (authHandler hash sign compare verifyTok now nowIso ip req users rl).1.status = 409 ∧
      (authHandler hash sign compare verifyTok now nowIso ip req users rl).1.body =
        .errMsg "Storage ID already exists" ∧
      (authHandler hash sign compare verifyTok now nowIso ip req users rl).2.1 = users) ∧
    (amHas users req.storageId = false →
      (authHandler hash sign compare verifyTok now nowIso ip req users rl).1.status = 200 ∧
      (authHandler hash sign compare verifyTok now nowIso ip req users rl).2.1 =
        amSet users req.storageId ⟨hash req.password, nowIso, ⟨[], []⟩⟩) := by
  have h1 : ¬ (csrfOkAuth req.csrf = false) := by rw [hcsrf]; exact fun hc => by cases hc
  have h2 : ¬ ((isRateLimited 60 (authKey ip req.deviceFingerprint) now rl).1 = true) := by
    rw [hrl]; exact fun hc => by cases hc
  have h3 : ¬ (req.storageId = "" ∨ req.password = "") := by
    rintro (hc | hc)
    · exact hsid hc
    · exact hpw hc
  constructor
  · intro hhas
    refine ⟨?_, ?_, ?_⟩ <;>
      simp only [authHandler, if_neg h1, if_neg h2, if_pos hact, if_neg h3, if_pos hhas]
  · intro hhas
    have h4 : ¬ (amHas users req.storageId = true) := by
      rw [hhas]; exact fun hc => by cases hc
    refine ⟨?_, ?_⟩ <;>
      simp only [authHandler, if_neg h1, if_neg h2, if_pos hact, if_neg h3, if_neg h4]

/-- Witness for C4: creating "bob" against a store that only holds "alice"
succeeds and appends exactly the hashed record. -/
theorem create_conflict_or_creates_witness :
    (authHandler (fun s => s ++ "#h") (fun s => "tok:" ++ s) (fun p h => (p ++ "#h") == h)
      (fun _ => none) 0 "iso" "ip"
      ⟨"create", "bob", "pw", "fp", some "create", none⟩ wUsers []).1.status = 200 ∧
    (authHandler (fun s => s ++ "#h") (fun s => "tok:" ++ s) (fun p h => (p ++ "#h") == h)
      (fun _ => none) 0 "iso" "ip"
      ⟨"create", "bob", "pw", "fp", some "create", none⟩ wUsers []).2.1 =
      amSet wUsers "bob" ⟨"pw#h", "iso", ⟨[], []⟩⟩ := by
  have h := (create_conflict_or_creates (fun s => s ++ "#h") (fun s => "tok:" ++ s)
    (fun p h => (p ++ "#h") == h) (fun _ => none) 0 "iso" "ip"
    ⟨"create", "bob", "pw", "fp", some "create", none⟩ wUsers []
    rfl (by decide) (by decide) (by decide) (by decide)).2 (by decide)
  exact ⟨h.1, h.2⟩

/-! ## C5: login succeeds exactly when the user exists and the password
matches -/

/-- Claim C5: a login request with non-empty storageId and password (passing
CSRF and rate-limit checks) returns 200 and sets a session cookie iff a user
record exists for that storageId and the supplied password matches the stored
hash; otherwise it returns 401 and sets no cookie. -/
theorem login_succeeds_iff (hash sign : String → String)
    (compare : String → String → Bool) (verifyTok : String → Option String)
    (now : Nat) (nowIso ip : String) (req : AuthReq) (users : UserStore) (rl : RLMap)
    (hact : req.action = "login") (hsid : req.storageId ≠ "") (hpw : req.password ≠ "")
    (hcsrf : csrfOkAuth req.csrf = true)
    (hrl : (isRateLimited 60 (authKey ip req.deviceFingerprint) now rl).1 = false) :
    (((authHandler hash sign compare verifyTok now nowIso ip req users rl).1.status = 200 ∧
      (authHandler hash sign compare verifyTok now nowIso ip req users rl).1.setCookie.isSome
        = true) ↔
      (∃ u, amFind users req.storageId = some u ∧ compare req.password u.password = true)) ∧
    ((¬ ∃ u, amFind users req.storageId = some u ∧ compare req.password u.password = true) →
      (authHandler hash sign compare verifyTok now nowIso ip req users rl).1.status = 401 ∧
      (authHandler hash sign compare verifyTok now nowIso ip req users rl).1.setCookie
        = none) := by
  have h1 : ¬ (csrfOkAuth req.csrf = false) := by rw [hcsrf]; exact fun hc => by cases hc
  have h2 : ¬ ((isRateLimited 60 (authKey ip req.deviceFingerprint) now rl).1 = true) := by
    rw [hrl]; exact fun hc => by cases hc
  have h3 : ¬ (req.storageId = "" ∨ req.password = "") := by
    rintro (hc | hc)
    · exact hsid hc
    · exact hpw hc
  have hnc : ¬ (req.action = "create") := by rw [hact]; decide
  cases hfind : amFind users req.storageId with
  | none =>
    have k : (authHandler hash sign compare verifyTok now nowIso ip req users rl).1 =
        ⟨401, .errMsg "Invalid storage ID or password", none⟩ := by
      simp only [authHandler, if_neg h1, if_neg h2, if_neg hnc, if_pos hact, if_neg h3, hfind]
    rw [k]
    constructor
    · constructor
      · rintro ⟨hc, -⟩
        exact absurd hc (by decide)
      · rintro ⟨u, hu, -⟩
        cases hu
    · intro _
      exact ⟨rfl, rfl⟩
  | some u =>
    by_cases hcmp : compare req.password u.password = false
    · have k : (authHandler hash sign compare verifyTok now nowIso ip req users rl).1 =
          ⟨401, .errMsg "Invalid storage ID or password", none⟩ := by
        simp only [authHandler, if_neg h1, if_neg h2, if_neg hnc, if_pos hact, if_neg h3,
          hfind, if_pos hcmp]
      rw [k]
      constructor
      · constructor
        · rintro ⟨hc, -⟩
          exact absurd hc (by decide)
        · rintro ⟨u', hu', hcmp'⟩
          injection hu' with hu'
          subst hu'
          rw [hcmp] at hcmp'
          exact absurd hcmp' (by decide)
      · intro _
        exact ⟨rfl, rfl⟩
    · have hcmp2 : compare req.password u.password = true := by
        revert hcmp
        cases compare req.password u.password <;> simp
      have k : (authHandler hash sign compare verifyTok now nowIso ip req users rl).1 =
          ⟨200, .msg "Login successful", some (sign req.storageId)⟩ := by
        simp only [authHandler, if_neg h1, if_neg h2, if_neg hnc, if_pos hact, if_neg h3,
          hfind, if_neg hcmp]
      rw [k]
      constructor
      · constructor
        · intro _
          exact ⟨u, rfl, hcmp2⟩
        · intro _
          exact ⟨rfl, rfl⟩
      · intro hn
        exact absurd ⟨u, rfl, hcmp2⟩ hn

/-- Witness for C5: "alice" logs in with the matching password and gets 200
with a session cookie. -/
theorem login_succeeds_iff_witness :
    (authHandler (fun s => s ++ "#h") (fun s => "tok:" ++ s)
      (fun p h => (p ++ "ed-pw") == h) (fun _ => none) 0 "iso" "ip"
      ⟨"login", "alice", "hash", "fp", some "login", none⟩ wUsers []).1.status = 200 ∧
    (authHandler (fun s => s ++ "#h") (fun s => "tok:" ++ s)
      (fun p h => (p ++ "ed-pw") == h) (fun _ => none) 0 "iso" "ip"
      ⟨"login", "alice", "hash", "fp", some "login", none⟩ wUsers []).1.setCookie.isSome
      = true := by
  have h := login_succeeds_iff (fun s => s ++ "#h") (fun s => "tok:" ++ s)
    (fun p h => (p ++ "ed-pw") == h) (fun _ => none) 0 "iso" "ip"
    ⟨"login", "alice", "hash", "fp", some "login", none⟩ wUsers []
    rfl (by decide) (by decide) (by decide) (by decide)
  exact h.1.mpr ⟨wUser, by decide, by decide⟩

/-! ## C10: the two login failure modes are indistinguishable -/

/-- Claim C10: a login whose storageId has no record and a login whose
storageId exists but whose password fails the hash check produce identical
responses: 401, body error "Invalid storage ID or password", no cookie. -/
theorem login_failures_indistinguishable (hash sign : String → String)
    (compare : String → String → Bool) (verifyTok : String → Option String)
    (now : Nat) (nowIso ip : String) (c1 c2 : Option String) (tok1 tok2 : Option String)
    (fp1 fp2 sid1 pw1 sid2 pw2 : String) (users : UserStore) (rl : RLMap) (u : UserRec)
    (hsid1 : sid1 ≠ "") (hpw1 : pw1 ≠ "") (hsid2 : sid2 ≠ "") (hpw2 : pw2 ≠ "")
    (hmiss : amFind users sid1 = none)
    (hhit : amFind users sid2 = some u)
    (hcmp : compare pw2 u.password = false)
    (hcsrf1 : csrfOkAuth c1 = true) (hcsrf2 : csrfOkAuth c2 = true)
    (hrl1 : (isRateLimited 60 (authKey ip fp1) now rl).1 = false)
    (hrl2 : (isRateLimited 60 (authKey ip fp2) now rl).1 = false) :
    (authHandler hash sign compare verifyTok now nowIso ip
        ⟨"login", sid1, pw1, fp1, c1, tok1⟩ users rl).1 =
      (authHandler hash sign compare verifyTok now nowIso ip
        ⟨"login", sid2, pw2, fp2, c2, tok2⟩ users rl).1 ∧
    (authHandler hash sign compare verifyTok now nowIso ip
        ⟨"login", sid1, pw1, fp1, c1, tok1⟩ users rl).1 =
      ⟨401, .errMsg "Invalid storage ID or password", none⟩ := by
  have hnc : ¬ (("login" : String) = "create") := by decide
  have hg3 : ∀ s p : String, s ≠ "" → p ≠ "" → ¬ (s = "" ∨ p = "") := by
    rintro s p hs hp (hc | hc)
    · exact hs hc
    · exact hp hc
  have k1 : (authHandler hash sign compare verifyTok now nowIso ip
      ⟨"login", sid1, pw1, fp1, c1, tok1⟩ users rl).1 =
      ⟨401, .errMsg "Invalid storage ID or password", none⟩ := by
    have h1 : ¬ (csrfOkAuth c1 = false) := by rw [hcsrf1]; exact fun hc => by cases hc
    have h2 : ¬ ((isRateLimited 60 (authKey ip fp1) now rl).1 = true) := by
      rw [hrl1]; exact fun hc => by cases hc
    simp only [authHandler, if_neg h1, if_neg h2, if_neg hnc, if_pos rfl, if_true,
      if_neg (hg3 sid1 pw1 hsid1 hpw1), hmiss]
  have k2 : (authHandler hash sign compare verifyTok now nowIso ip
      ⟨"login", sid2, pw2, fp2, c2, tok2⟩ users rl).1 =
      ⟨401, .errMsg "Invalid storage ID or password", none⟩ := by
    have h1 : ¬ (csrfOkAuth c2 = false) := by rw [hcsrf2]; exact fun hc => by cases hc
    have h2 : ¬ ((isRateLimited 60 (authKey ip fp2) now rl).1 = true) := by
      rw [hrl2]; exact fun hc => by cases hc
    simp only [authHandler, if_neg h1, if_neg h2, if_neg hnc, if_pos rfl, if_true,
      if_neg (hg3 sid2 pw2 hsid2 hpw2), hhit, if_pos hcmp]
  exact ⟨k1.trans k2.symm, k1⟩

/-- Witness for C10: unknown user "bob" and wrong-password "alice" get the
same 401 response. -/
theorem login_failures_indistinguishable_witness :
    (authHandler (fun s => s ++ "#h") (fun s => "tok:" ++ s)
      (fun p h => (p ++ "ed-pw") == h) (fun _ => none) 0 "iso" "ip"
      ⟨"login", "bob", "pw", "fp", some "login", none⟩ wUsers []).1 =
    (authHandler (fun s => s ++ "#h") (fun s => "tok:" ++ s)
      (fun p h => (p ++ "ed-pw") == h) (fun _ => none) 0 "iso" "ip"
      ⟨"login", "alice", "wrong", "fp", some "login", none⟩ wUsers []).1 ∧
    (authHandler (fun s => s ++ "#h") (fun s => "tok:" ++ s)
      (fun p h => (p ++ "ed-pw") == h) (fun _ => none) 0 "iso" "ip"
      ⟨"login", "bob", "pw", "fp", some "login", none⟩ wUsers []).1 =
      ⟨401, .errMsg "Invalid storage ID or password", none⟩ :=
  login_failures_indistinguishable (fun s => s ++ "#h") (fun s => "tok:" ++ s)
    (fun p h => (p ++ "ed-pw") == h) (fun _ => none) 0 "iso" "ip"
    (some "login") (some "login") none none "fp" "fp" "bob" "pw" "alice" "wrong"
    wUsers [] wUser (by decide) (by decide) (by decide) (by decide)
    (by decide) (by decide) (by decide) (by decide) (by decide)
    (by decide) (by decide)

/-! ## C8: renameItem touches only the one record's name and modified fields -/

theorem findIdx?_bound {α : Type} (p : α → Bool) :
    ∀ (l : List α) (s i : Nat), List.findIdx? p l s = some i → s ≤ i ∧ i - s < l.length
  | [], s, i, h => by
      rw [List.findIdx?_nil] at h
      cases h
  | x :: xs, s, i, h => by
      rw [List.findIdx?_cons] at h
      by_cases hp : p x = true
      · rw [if_pos hp] at h
        injection h with h
        subst h
        exact ⟨Nat.le_refl s, by simp⟩
      · rw [if_neg hp] at h
        obtain ⟨h1, h2⟩ := findIdx?_bound p xs (s+1) i h
        refine ⟨Nat.le_trans (Nat.le_succ s) h1, ?_⟩
        simp only [List.length_cons]
        omega

/-- Every branch of the dispatch that does not answer 200 stores nothing. -/
theorem dispatch_none_or_200 (now : Nat) (iso : String) (a : StorageAction) (st : Storage) :
    (jsonbinDispatch now iso a st).2 = none ∨ (jsonbinDispatch now iso a st).1.status = 200 := by
  cases a with
  | getStorage => exact Or.inl rfl
  | updateStorage data =>
    cases data with
    | none => exact Or.inl rfl
    | some d => exact Or.inr rfl
  | addFile data folderId =>
    cases data with
    | none => exact Or.inl rfl
    | some d => exact Or.inr rfl
  | addFolder data folderId =>
    cases data with
    | none => exact Or.inl rfl
    | some d =>
      by_cases hn : d.name = ""
      · simp only [jsonbinDispatch, if_pos hn]
        exact Or.inl trivial
      · simp only [jsonbinDispatch, if_neg hn]
        exact Or.inr trivial
  | renameItem t f n =>
    simp only [jsonbinDispatch]
    split
    · exact Or.inl rfl
    · split
      · split
        · exact Or.inl rfl
        · exact Or.inr rfl
      · split
        · split
          · exact Or.inl rfl
          · exact Or.inr rfl
        · exact Or.inl rfl
  | deleteItem t f =>
    simp only [jsonbinDispatch]
    split
    · exact Or.inl rfl
    · split
      · exact Or.inr rfl
      · split
        · exact Or.inr rfl
        · exact Or.inl rfl
  | other s => exact Or.inl rfl

/-- Claim C8: a successful renameItem on a file (resp. folder) present in the
storage replaces only the name and modified fields of the record at the found
index, leaves every other index of that collection and the whole other
collection unchanged; and every non-200 renameItem response leaves the stored
record entirely unchanged. -/
theorem renameItem_frame (now : Nat) (iso fid newName : String) (st : Storage)
    (hfid : fid ≠ "") (hname : newName ≠ "") :
    (∀ i, st.files.findIdx? (fun f => f.id == fid) = some i →
      (applyAction now iso (.renameItem "file" fid newName) st).1.status = 200 ∧
      (applyAction now iso (.renameItem "file" fid newName) st).2.folders = st.folders ∧
      (applyAction now iso (.renameItem "file" fid newName) st).2.files =
        st.files.set i
          { st.files.getD i default with name := newName, modified := iso } ∧
      (∀ j, j ≠ i →
        (applyAction now iso (.renameItem "file" fid newName) st).2.files[j]? =
          st.files[j]?) ∧
      (∀ f, st.files[i]? = some f →
        (applyAction now iso (.renameItem "file" fid newName) st).2.files[i]? =
          some { f with name := newName, modified := iso })) ∧
    (∀ i, st.folders.findIdx? (fun f => f.id == fid) = some i →
      (applyAction now iso (.renameItem "folder" fid newName) st).1.status = 200 ∧
      (applyAction now iso (.renameItem "folder" fid newName) st).2.files = st.files ∧
      (applyAction now iso (.renameItem "folder" fid newName) st).2.folders =
        st.folders.set i
          { st.folders.getD i default with name := newName, modified := iso } ∧
      (∀ j, j ≠ i →
        (applyAction now iso (.renameItem "folder" fid newName) st).2.folders[j]? =
          st.folders[j]?) ∧
      (∀ f, st.folders[i]? = some f →
        (applyAction now iso (.renameItem "folder" fid newName) st).2.folders[i]? =
          some { f with name := newName, modified := iso })) ∧
    (∀ t f n, (applyAction now iso (.renameItem t f n) st).1.status ≠ 200 →
      (applyAction now iso (.renameItem t f n) st).2 = st) := by
  have hcondFile : ¬(("file" : String) = "" ∨ fid = "" ∨ newName = "") := by
    rintro (hc | hc | hc)
    · exact absurd hc (by decide)
    · exact hfid hc
    · exact hname hc
  have hcondFolder : ¬(("folder" : String) = "" ∨ fid = "" ∨ newName = "") := by
    rintro (hc | hc | hc)
    · exact absurd hc (by decide)
    · exact hfid hc
    · exact hname hc
  refine ⟨?_, ?_, ?_⟩
  · intro i hidx
    have key : applyAction now iso (.renameItem "file" fid newName) st =
        (⟨200, .msg "Item renamed successfully"⟩,
         ⟨st.files.set i
            { st.files.getD i default with name := newName, modified := iso },
          st.folders⟩) := by
      simp only [applyAction, jsonbinDispatch, if_neg hcondFile, if_pos rfl, if_true,
        hidx, Option.getD_some]
    rw [key]
    refine ⟨rfl, rfl, rfl, ?_, ?_⟩
    · intro j hj
      exact List.getElem?_set_ne (fun hc => hj hc.symm)
    · intro f hf
      have hlt : i < st.files.length := by
        have := findIdx?_bound _ st.files 0 i hidx
        omega
      rw [getD_eq_of_getElem? hf, List.getElem?_set, if_pos rfl, if_pos hlt]
  · intro i hidx
    have hfolderNotFile : ¬(("folder" : String) = "file") := by decide
    have key : applyAction now iso (.renameItem "folder" fid newName) st =
        (⟨200, .msg "Item renamed successfully"⟩,
         ⟨st.files,
          st.folders.set i
            { st.folders.getD i default with name := newName, modified := iso }⟩) := by
      simp only [applyAction, jsonbinDispatch, if_neg hcondFolder, if_neg hfolderNotFile,
        if_pos rfl, if_true, hidx, Option.getD_some]
    rw [key]
    refine ⟨rfl, rfl, rfl, ?_, ?_⟩
    · intro j hj
      exact List.getElem?_set_ne (fun hc => hj hc.symm)
    · intro f hf
      have hlt : i < st.folders.length := by
        have := findIdx?_bound _ st.folders 0 i hidx
        omega
      rw [getD_eq_of_getElem? hf, List.getElem?_set, if_pos rfl, if_pos hlt]
  · intro t f n hne
    rcases dispatch_none_or_200 now iso (.renameItem t f n) st with h | h
    · simp only [applyAction]
      rw [h]
      rfl
    · exact absurd h hne

/-- Witness for C8: renaming file "a1" in the concrete storage succeeds and
rewrites exactly that record. -/
theorem renameItem_frame_witness :
    (applyAction 7 "t7" (.renameItem "file" "a1" "new.txt") wStorage).1.status = 200 ∧
    (applyAction 7 "t7" (.renameItem "file" "a1" "new.txt") wStorage).2.files =
      wStorage.files.set 0
        { wStorage.files.getD 0 default with name := "new.txt", modified := "t7" } ∧
    (applyAction 7 "t7" (.renameItem "file" "a1" "new.txt") wStorage).2.folders =
      wStorage.folders := by
  have h := (renameItem_frame 7 "t7" "a1" "new.txt" wStorage (by decide) (by decide)).1
    0 (by decide)
  exact ⟨h.1, h.2.2.1, h.2.1⟩

/-! ## C9: unknown storage ids get a default record before dispatch -/

/-- Claim C9: when the token's storageId has no record, the in-memory storage
handler installs the default record before dispatching on any action; in
particular getStorage returns that default with 200 and the store grows by
one entry. -/
theorem unknown_storage_gets_default (now : Nat) (iso : String) (csrf : Option String)
    (ip storageId : String) (store : StoreMap) (rl : RLMap)
    (hcsrf : csrfOkStorage csrf = true)
    (hrl : (isRateLimited 120 ip now rl).1 = false)
    (hmiss : amHas store storageId = false) :
    (∀ a, amHas (jsonbinHandler now iso csrf ip storageId a store rl).2.1 storageId
      = true) ∧
    (jsonbinHandler now iso csrf ip storageId .getStorage store rl).1 =
      ⟨200, .storagePayload defaultStorage⟩ ∧
    (jsonbinHandler now iso csrf ip storageId .getStorage store rl).2.1 =
      amSet store storageId defaultStorage ∧
    (jsonbinHandler now iso csrf ip storageId .getStorage store rl).2.1.length =
      store.length + 1 := by
  have h1 : ¬ (csrfOkStorage csrf = false) := by rw [hcsrf]; exact fun hc => by cases hc
  have h2 : ¬ ((isRateLimited 120 ip now rl).1 = true) := by
    rw [hrl]; exact fun hc => by cases hc
  have h3 : ¬ (amHas store storageId = true) := by rw [hmiss]; exact fun hc => by cases hc
  have hget : jsonbinHandler now iso csrf ip storageId .getStorage store rl =
      (⟨200, .storagePayload defaultStorage⟩, amSet store storageId defaultStorage,
        (isRateLimited 120 ip now rl).2) := by
    simp only [jsonbinHandler, if_neg h1, if_neg h2, if_neg h3, amFind_amSet_self,
      Option.getD_some, jsonbinDispatch]
  refine ⟨?_, ?_, ?_, ?_⟩
  · intro a
    simp only [jsonbinHandler, if_neg h1, if_neg h2, if_neg h3, amFind_amSet_self,
      Option.getD_some]
    cases hq : (jsonbinDispatch now iso a defaultStorage).2 with
    | none =>
      simp only [hq]
      exact amHas_amSet_self store storageId defaultStorage
    | some s2 =>
      simp only [hq]
      exact amHas_amSet_self _ storageId s2
  · rw [hget]
  · rw [hget]
  · rw [hget]
    exact length_amSet_of_not_has store storageId defaultStorage hmiss

/-- Witness for C9 at a concrete store: user "carol" is unknown, getStorage
answers the default record and the store gains the new entry. -/
theorem unknown_storage_gets_default_witness :
    (jsonbinHandler 0 "iso" (some "read") "ip" "carol" .getStorage [("dave", wStorage)]
      []).1 = ⟨200, .storagePayload defaultStorage⟩ ∧
    (jsonbinHandler 0 "iso" (some "read") "ip" "carol" .getStorage [("dave", wStorage)]
      []).2.1.length = 2 := by
  have h := unknown_storage_gets_default 0 "iso" (some "read") "ip" "carol"
    [("dave", wStorage)] [] (by decide) (by decide) (by decide)
  exact ⟨h.2.1, h.2.2.2⟩

/-! ## C7: the sliding-window rate limiter -/

theorem rlFilter_append (ws : Int) (l1 l2 : List Nat) :
    rlFilter ws (l1 ++ l2) = rlFilter ws l1 ++ rlFilter ws l2 :=
  List.filter_append l1 l2

theorem rlFilter_absorb (ws ws' : Int) (h : ws ≤ ws') (l : List Nat) :
    rlFilter ws' (rlFilter ws l) = rlFilter ws' l := by
  rw [rlFilter, rlFilter, rlFilter, List.filter_filter]
  refine List.filter_congr ?_
  intro t _
  by_cases ht : ws' < (t : Int)
  · have hw : ws < (t : Int) := lt_of_le_of_lt h ht
    simp [ht, hw]
  · simp [ht]

theorem amFind_eq_none_of_not_mem_keys {α : Type} (k : String) :
    ∀ (m : List (String × α)), k ∉ m.map Prod.fst → amFind m k = none
  | [], _ => rfl
  | e :: m, h => by
      simp only [List.map_cons, List.mem_cons] at h
      push_neg at h
      simp only [amFind]
      rw [if_neg (fun hc => h.1 (beq_iff_eq.mp hc).symm)]
      exact amFind_eq_none_of_not_mem_keys k m h.2

theorem keys_rlCleanup_sublist (ws : Int) :
    ∀ (m : RLMap), List.Sublist ((rlCleanup ws m).map Prod.fst) (m.map Prod.fst)
  | [] => List.Sublist.refl []
  | e :: m => by
      simp only [rlCleanup]
      by_cases hlen : (rlFilter ws e.2).length = 0
      · rw [if_pos hlen]
        simp only [List.map_cons]
        exact List.Sublist.cons e.1 (keys_rlCleanup_sublist ws m)
      · rw [if_neg hlen]
        simp only [List.map_cons]
        exact List.Sublist.cons₂ e.1 (keys_rlCleanup_sublist ws m)

theorem keysNodup_rlCleanup (ws : Int) (m : RLMap) (h : keysNodup m) :
    keysNodup (rlCleanup ws m) :=
  List.Nodup.sublist (keys_rlCleanup_sublist ws m) h

theorem mem_keys_amSet {α : Type} (k x : String) (v : α) :
    ∀ (m : List (String × α)), x ∈ (amSet m k v).map Prod.fst →
      x = k ∨ x ∈ m.map Prod.fst
  | [], h => by
      simp only [amSet, List.map_cons, List.map_nil, List.mem_cons] at h
      rcases h with h | h
      · exact Or.inl h
      · cases h
  | e :: m, h => by
      by_cases he : (e.1 == k) = true
      · simp only [amSet, if_pos he, List.map_cons, List.mem_cons] at h
        rcases h with h | h
        · exact Or.inl h
        · exact Or.inr (List.mem_cons_of_mem e.1 h)
      · simp only [amSet, if_neg he, List.map_cons, List.mem_cons] at h
        rcases h with h | h
        · exact Or.inr (h ▸ List.mem_cons_self e.1 (m.map Prod.fst))
        · rcases mem_keys_amSet k x v m h with h2 | h2
          · exact Or.inl h2
          · exact Or.inr (List.mem_cons_of_mem e.1 h2)

theorem keysNodup_amSet {α : Type} (k : String) (v : α) :
    ∀ (m : List (String × α)), keysNodup m → keysNodup (amSet m k v)
  | [], _ => by simp [keysNodup, amSet]
  | e :: m, h => by
      simp only [keysNodup, List.map_cons, List.nodup_cons] at h
      by_cases he : (e.1 == k) = true
      · have hek : e.1 = k := beq_iff_eq.mp he
        simp only [keysNodup, amSet, if_pos he, List.map_cons, List.nodup_cons]
        exact ⟨hek ▸ h.1, h.2⟩
      · simp only [keysNodup, amSet, if_neg he, List.map_cons, List.nodup_cons]
        refine ⟨?_, keysNodup_amSet k v m h.2⟩
        intro hc
        rcases mem_keys_amSet k e.1 v m hc with h2 | h2
        · exact he (beq_iff_eq.mpr h2)
        · exact h.1 h2

/-- Looking a key up after the cleanup pass gives exactly the filtered old
timestamps of that key (empty-entry deletion included). -/
theorem amFind_rlCleanup (ws : Int) (k : String) :
    ∀ (m : RLMap), keysNodup m →
    (amFind (rlCleanup ws m) k).getD [] = rlFilter ws ((amFind m k).getD [])
  | [], _ => rfl
  | e :: m, hnd => by
      have hnd' : keysNodup m := by
        simp only [keysNodup, List.map_cons, List.nodup_cons] at hnd
        exact hnd.2
      have hnotin : e.1 ∉ m.map Prod.fst := by
        simp only [keysNodup, List.map_cons, List.nodup_cons] at hnd
        exact hnd.1
      simp only [rlCleanup]
      by_cases hlen : (rlFilter ws e.2).length = 0
      · rw [if_pos hlen]
        by_cases he : (e.1 == k) = true
        · have hek : e.1 = k := beq_iff_eq.mp he
          have hkn : amFind (rlCleanup ws m) k = none :=
            amFind_eq_none_of_not_mem_keys k (rlCleanup ws m)
              (fun hc => (hek ▸ hnotin) ((keys_rlCleanup_sublist ws m).subset hc))
          rw [hkn]
          simp only [amFind]
          rw [if_pos he]
          simp only [Option.getD_some, Option.getD_none]
          exact (List.length_eq_zero.mp hlen).symm
        · have htail := amFind_rlCleanup ws k m hnd'
          rw [htail]
          simp only [amFind]
          rw [if_neg he]
      · rw [if_neg hlen]
        by_cases he : (e.1 == k) = true
        · simp only [amFind]
          rw [if_pos he, if_pos he]
          simp only [Option.getD_some]
        · simp only [amFind]
          rw [if_neg he, if_neg he]
          exact amFind_rlCleanup ws k m hnd'

theorem acceptedTimes_append (h1 h2 : List ((String × Nat) × Bool)) (k : String) :
    acceptedTimes (h1 ++ h2) k = acceptedTimes h1 k ++ acceptedTimes h2 k := by
  simp [acceptedTimes, List.filter_append, List.map_append]

/-- The window count over a history equals the length of the window-filtered
accepted timestamps of that key. -/
theorem winCount_eq (k : String) (now : Nat) :
    ∀ (hist : List ((String × Nat) × Bool)),
    winCount hist k now =
      (rlFilter ((now : Int) - 3600000) (acceptedTimes hist k)).length
  | [] => rfl
  | h :: hist => by
      have ih := winCount_eq k now hist
      by_cases h1 : (h.1.1 == k && !h.2) = true
      · by_cases h2 : ((now : Int) - 3600000 < (h.1.2 : Int))
        · simp [winCount, acceptedTimes, rlFilter, List.filter_cons, h1, h2] at ih ⊢
          exact ih
        · simp [winCount, acceptedTimes, rlFilter, List.filter_cons, h1, h2] at ih ⊢
          exact ih
      · simp [winCount, acceptedTimes, rlFilter, List.filter_cons, h1] at ih ⊢
        exact ih

/-- Core induction: along a run with nondecreasing clock values, a request is
rejected exactly when at least `limit` earlier admitted requests with its key
fall inside the hour before its own timestamp.  `hist` accumulates the already
processed requests with their decisions, `B` bounds their timestamps, and the
invariant says the stored window of every key matches the admitted history. -/
theorem rlTrace_spec (limit : Nat) :
    ∀ (rs : List (String × Nat)) (m : RLMap) (hist : List ((String × Nat) × Bool))
      (B : Nat),
    keysNodup m →
    (∀ (kk : String) (T : Nat), B ≤ T →
      rlFilter ((T : Int) - 3600000) ((amFind m kk).getD []) =
        rlFilter ((T : Int) - 3600000) (acceptedTimes hist kk)) →
    (∀ r ∈ rs, B ≤ r.2) →
    List.Pairwise (fun a b => a ≤ b) (rs.map Prod.snd) →
    ∀ i r b, (rlTrace limit rs m)[i]? = some (r, b) →
      (b = true ↔ limit ≤ winCount (hist ++ (rlTrace limit rs m).take i) r.1 r.2)
  | [], m, hist, B => by
      intro _ _ _ _ i r b h
      simp only [rlTrace, List.getElem?_nil] at h
      exact Option.noConfusion h
  | (k0, t0) :: rs', m, hist, B => by
      intro hnd hinv hbound hmono i r b htr
      have hB0 : B ≤ t0 := hbound (k0, t0) (List.mem_cons_self _ _)
      have hts : rlFilter ((t0 : Int) - 3600000)
            ((amFind (rlCleanup ((t0 : Int) - 3600000) m) k0).getD []) =
          rlFilter ((t0 : Int) - 3600000) (acceptedTimes hist k0) := by
        rw [amFind_rlCleanup _ _ m hnd, rlFilter_absorb _ _ (le_refl _)]
        exact hinv k0 t0 hB0
      have hcount0 : winCount hist k0 t0 =
          (rlFilter ((t0 : Int) - 3600000)
            ((amFind (rlCleanup ((t0 : Int) - 3600000) m) k0).getD [])).length := by
        rw [winCount_eq, hts]
      have hboundTail : ∀ r' ∈ rs', t0 ≤ r'.2 := fun r' hr' =>
        (List.pairwise_cons.mp hmono).1 r'.2 (List.mem_map_of_mem Prod.snd hr')
      have hmonoTail : List.Pairwise (fun a b => a ≤ b) (rs'.map Prod.snd) :=
        (List.pairwise_cons.mp hmono).2
      by_cases hdec : limit ≤ (rlFilter ((t0 : Int) - 3600000)
          ((amFind (rlCleanup ((t0 : Int) - 3600000) m) k0).getD [])).length
      · have hcall : isRateLimited limit k0 t0 m =
            (true, rlCleanup ((t0 : Int) - 3600000) m) := by
          simp only [isRateLimited, if_pos hdec]
        have htrace : rlTrace limit ((k0, t0) :: rs') m =
            ((k0, t0), true) ::
              rlTrace limit rs' (rlCleanup ((t0 : Int) - 3600000) m) := by
          simp only [rlTrace, hcall]
        rw [htrace] at htr
        cases i with
        | zero =>
          simp only [List.getElem?_cons_zero] at htr
          injection htr with htr
          injection htr with hr hb
          subst hr
          subst hb
          rw [htrace]
          simp only [List.take_zero, List.append_nil]
          constructor
          · intro _
            exact le_of_le_of_eq hdec hcount0.symm
          · intro _
            trivial
        | succ j =>
          simp only [List.getElem?_cons_succ] at htr
          have hinv2 : ∀ (kk : String) (T : Nat), t0 ≤ T →
              rlFilter ((T : Int) - 3600000)
                ((amFind (rlCleanup ((t0 : Int) - 3600000) m) kk).getD []) =
              rlFilter ((T : Int) - 3600000)
                (acceptedTimes (hist ++ [((k0, t0), true)]) kk) := by
            intro kk T hT
            rw [amFind_rlCleanup _ _ m hnd,
              rlFilter_absorb _ _
                (by omega : ((t0 : Int) - 3600000) ≤ ((T : Int) - 3600000)),
              acceptedTimes_append]
            have hsing : acceptedTimes [((k0, t0), true)] kk = [] := by
              simp [acceptedTimes]
            rw [hsing, List.append_nil]
            exact hinv kk T (le_trans hB0 hT)
          have ih := rlTrace_spec limit rs' (rlCleanup ((t0 : Int) - 3600000) m)
            (hist ++ [((k0, t0), true)]) t0
            (keysNodup_rlCleanup _ m hnd) hinv2 hboundTail hmonoTail j r b htr
          rw [htrace]
          simp only [List.take_succ_cons]
          rw [List.append_cons]
          exact ih
      · have hcall : isRateLimited limit k0 t0 m =
            (false, amSet (rlCleanup ((t0 : Int) - 3600000) m) k0
              (rlFilter ((t0 : Int) - 3600000)
                ((amFind (rlCleanup ((t0 : Int) - 3600000) m) k0).getD []) ++ [t0])) := by
          simp only [isRateLimited, if_neg hdec]
        have htrace : rlTrace limit ((k0, t0) :: rs') m =
            ((k0, t0), false) :: rlTrace limit rs'
              (amSet (rlCleanup ((t0 : Int) - 3600000) m) k0
                (rlFilter ((t0 : Int) - 3600000)
                  ((amFind (rlCleanup ((t0 : Int) - 3600000) m) k0).getD []) ++ [t0])) := by
          simp only [rlTrace, hcall]
        rw [htrace] at htr
        cases i with
        | zero =>
          simp only [List.getElem?_cons_zero] at htr
          injection htr with htr
          injection htr with hr hb
          subst hr
          subst hb
          rw [htrace]
          simp only [List.take_zero, List.append_nil]
          constructor
          · intro hc
            exact absurd hc (by decide)
          · intro hcnt
            exact absurd (le_of_le_of_eq hcnt hcount0) hdec
        | succ j =>
          simp only [List.getElem?_cons_succ] at htr
          have hinv2 : ∀ (kk : String) (T : Nat), t0 ≤ T →
              rlFilter ((T : Int) - 3600000)
                ((amFind (amSet (rlCleanup ((t0 : Int) - 3600000) m) k0
                  (rlFilter ((t0 : Int) - 3600000)
                    ((amFind (rlCleanup ((t0 : Int) - 3600000) m) k0).getD [])
                      ++ [t0])) kk).getD []) =
              rlFilter ((T : Int) - 3600000)
                (acceptedTimes (hist ++ [((k0, t0), false)]) kk) := by
            intro kk T hT
            have habs : ((t0 : Int) - 3600000) ≤ ((T : Int) - 3600000) := by omega
            rw [acceptedTimes_append]
            by_cases hkk : kk = k0
            · subst hkk
              rw [amFind_amSet_self]
              simp only [Option.getD_some]
              have hsing : acceptedTimes [((kk, t0), false)] kk = [t0] := by
                simp [acceptedTimes]
              rw [hsing, hts, rlFilter_append, rlFilter_append,
                rlFilter_absorb _ _ habs]
            · rw [amFind_amSet_ne k0 kk hkk]
              have hsing : acceptedTimes [((k0, t0), false)] kk = [] := by
                have hkf : (k0 == kk) = false :=
                  beq_eq_false_iff_ne.mpr (fun hc => hkk hc.symm)
                simp [acceptedTimes, hkf]
              rw [hsing, List.append_nil, amFind_rlCleanup _ _ m hnd,
                rlFilter_absorb _ _ habs]
              exact hinv kk T (le_trans hB0 hT)
          have ih := rlTrace_spec limit rs'
            (amSet (rlCleanup ((t0 : Int) - 3600000) m) k0
              (rlFilter ((t0 : Int) - 3600000)
                ((amFind (rlCleanup ((t0 : Int) - 3600000) m) k0).getD []) ++ [t0]))
            (hist ++ [((k0, t0), false)]) t0
            (keysNodup_amSet _ _ _ (keysNodup_rlCleanup _ m hnd))
            hinv2 hboundTail hmonoTail j r b htr
          rw [htrace]
          simp only [List.take_succ_cons]
          rw [List.append_cons]
          exact ih

/-- Claim C7: with nondecreasing clock values, a request is rejected (429) by
the auth limiter iff at least 60 earlier non-rejected requests with the same
key fall within the preceding 3600000 ms, and by the storage limiter iff at
least 120 earlier non-rejected requests from the same IP do; rejected
requests are not recorded in the window. -/
theorem rate_limit_sliding_window (reqsAuth reqsStorage : List (String × Nat))
    (hmonoAuth : List.Pairwise (fun a b => a ≤ b) (reqsAuth.map Prod.snd))
    (hmonoStorage : List.Pairwise (fun a b => a ≤ b) (reqsStorage.map Prod.snd)) :
    (∀ i r b, (rlTrace 60 reqsAuth [])[i]? = some (r, b) →
      (b = true ↔ 60 ≤ winCount ((rlTrace 60 reqsAuth []).take i) r.1 r.2)) ∧
    (∀ i r b, (rlTrace 120 reqsStorage [])[i]? = some (r, b) →
      (b = true ↔ 120 ≤ winCount ((rlTrace 120 reqsStorage []).take i) r.1 r.2)) := by
  constructor
  · intro i r b h
    have hs := rlTrace_spec 60 reqsAuth [] [] 0 List.nodup_nil
      (fun kk T _ => rfl) (fun r' _ => Nat.zero_le _) hmonoAuth i r b h
    rwa [List.nil_append] at hs
  · intro i r b h
    have hs := rlTrace_spec 120 reqsStorage [] [] 0 List.nodup_nil
      (fun kk T _ => rfl) (fun r' _ => Nat.zero_le _) hmonoStorage i r b h
    rwa [List.nil_append] at hs

/-- Witness for C7 on a concrete two-request run: the second request from key
"a" is admitted, matching a window count of one earlier admitted request. -/
theorem rate_limit_sliding_window_witness :
    (false = true ↔ 60 ≤ winCount ((rlTrace 60 [("a", 5), ("a", 10)] []).take 1) "a" 10) :=
  (rate_limit_sliding_window [("a", 5), ("a", 10)] [("b", 7)] (by decide) (by decide)).1
    1 ("a", 10) false (by decide)

end SimpleCloud
